import Mathlib

/-!
# Verification of the user_management_service multi-tenant core

A shallow embedding of the repository's per-project tenant-table
provisioning, tenant user store, authentication and authorization code,
with theorems settling the frozen specification claims.

Conventions of the embedding:
* `uuid.UUID` values produced by `uuid.New()` are modelled as `Nat`
  parameters supplied explicitly (fresh-id arguments), since the claims
  never depend on the byte representation of freshly generated ids.
* `uuid.Parse` (github.com/google/uuid, an external collaborator) is
  modelled byte-faithfully: it accepts the four textual layouts the Go
  library accepts and yields the 16 parsed bytes.
* `time.Time` / `time.Duration` are modelled as `Nat` seconds; the current
  instant `time.Now()` is threaded as an explicit `now` argument.
* bcrypt (golang.org/x/crypto/bcrypt, an external collaborator) is
  modelled by its contract: `GenerateFromPassword` yields a tagged,
  never-empty string and `CompareHashAndPassword` succeeds exactly when
  the hash was generated from the password.
* The relational datastore is modelled as the spec's §6 collaborator: a
  transactional store in which row changes and dynamic-table DDL made on
  an open transaction become visible only at commit and are discarded on
  rollback.  Failure injection flags stand for the datastore failing an
  individual statement.
* gorm soft deletion is modelled by a `deleted` flag on each row; every
  query filters deleted rows away, as gorm's default scope does.
-/

namespace UserMgmt

/-! ## External collaborator models -/

/-- Modelled from the spec: collaborator `golang.org/x/crypto/bcrypt`.
`GenerateFromPassword` produces a salted hash; modelled as a tagged
encoding of the password (the `$2a$10$` version/cost prefix of a real
bcrypt hash), which is in particular never the empty string. -/
def bcryptGenerateFromPassword (password : String) : String :=
  "$2a$10$" ++ password

/-- Modelled from the spec: collaborator `golang.org/x/crypto/bcrypt`.
`CompareHashAndPassword` succeeds exactly when the stored hash was
generated from the supplied password. -/
def bcryptCompareHashAndPassword (hash password : String) : Bool :=
  hash == bcryptGenerateFromPassword password

/-- Hex digit value, as `github.com/google/uuid`'s `xtob` accepts it
(both lowercase and uppercase). -/
def hexVal (c : Char) : Option Nat :=
  if '0' ≤ c ∧ c ≤ '9' then some (c.toNat - '0'.toNat)
  else if 'a' ≤ c ∧ c ≤ 'f' then some (c.toNat - 'a'.toNat + 10)
  else if 'A' ≤ c ∧ c ≤ 'F' then some (c.toNat - 'A'.toNat + 10)
  else none

/-- One byte out of two adjacent hex characters (`xtob`). -/
def byteAt (cs : List Char) (i : Nat) : Option Nat := do
  let c1 ← cs.get? i
  let c2 ← cs.get? (i + 1)
  let h ← hexVal c1
  let l ← hexVal c2
  pure (16 * h + l)

/-- The 36-character canonical layout `xxxxxxxx-xxxx-xxxx-xxxx-xxxxxxxxxxxx`:
hyphens at positions 8, 13, 18, 23 and sixteen hex byte pairs. -/
def parseCanonical (cs : List Char) : Option (List Nat) :=
  if cs.get? 8 = some '-' ∧ cs.get? 13 = some '-' ∧
      cs.get? 18 = some '-' ∧ cs.get? 23 = some '-' then
    [0, 2, 4, 6, 9, 11, 14, 16, 19, 21, 24, 26, 28, 30, 32, 34].mapM (byteAt cs)
  else none

/-- Modelled from the spec: collaborator `github.com/google/uuid`'s
`Parse`, which accepts the canonical 36-character form, the
`urn:uuid:`-prefixed form (case-insensitive prefix), a brace-wrapped form
(only the leading brace is skipped, trailing byte unchecked, as in the Go
source), and the bare 32-hex-digit form. -/
def uuidParse (s : String) : Option (List Nat) :=
  let cs := s.data
  if cs.length = 36 then parseCanonical cs
  else if cs.length = 45 then
    if (cs.take 9).map Char.toLower = "urn:uuid:".data then
      parseCanonical (cs.drop 9)
    else none
  else if cs.length = 38 then parseCanonical (cs.drop 1)
  else if cs.length = 32 then
    [0, 2, 4, 6, 8, 10, 12, 14, 16, 18, 20, 22, 24, 26, 28, 30].mapM (byteAt cs)
  else none

/-! ## Tenant table naming

Every site in the repository that constructs a tenant user table name is
embedded as its own definition so their agreement can be stated. -/

/-- `getProjectUserTableName` from the project-user store
(`fmt.Sprintf("project_%s_users", projectID)`). -/
def getProjectUserTableName (projectID : String) : String :=
  "project_" ++ projectID ++ "_users"

/-- The inline construction in `projects.Manager.CreateProject`
(`"project_" + uniqueID + "_users"`). -/
def managerCreateTableName (uniqueID : String) : String :=
  "project_" ++ uniqueID ++ "_users"

/-- The inline construction in `projects.Manager.DeleteProject`
(`"project_" + project.UniqueID + "_users"`). -/
def managerDeleteTableName (uniqueID : String) : String :=
  "project_" ++ uniqueID ++ "_users"

/-- The construction in `ProjectService.CreateUserProjectTable`
(`fmt.Sprintf("project_%s_users", projectID)`). -/
def projectServiceTableName (projectID : String) : String :=
  "project_" ++ projectID ++ "_users"

/-! ## Data model (internal/schemas) -/

/-- `schemas.Project`.  `DeletedAt` tombstones are modelled by keeping only
the visible (non-soft-deleted) rows in the provisioning state. -/
structure Project where
  id : Nat
  name : String
  description : String
  uniqueID : String
  createdAt : Nat
  updatedAt : Nat
  deriving Repr, DecidableEq

/-- `schemas.Role`.  The `Expiration time.Duration` field is the one
`roles.Manager` reads and writes (`role.Expiration`,
`GetExpirationTime`); modelled as seconds. -/
structure Role where
  id : Nat
  name : String
  description : String
  expiration : Nat
  deleted : Bool
  deriving Repr, DecidableEq

/-- `schemas.Policy`. -/
structure Policy where
  id : Nat
  name : String
  description : String
  resource : String
  action : String
  effect : String
  rolesId : Nat
  deleted : Bool
  deriving Repr, DecidableEq

/-- `schemas.User` (the single global user table). -/
structure User where
  id : Nat
  email : String
  password : String
  firstName : String
  lastName : String
  active : Bool
  oauthID : String
  oauthType : String
  tokenExpiry : Nat
  expirationTime : Nat
  roleId : Nat
  projectId : Nat
  deleted : Bool
  deriving Repr, DecidableEq

/-- `schemas.ProjectUser`, the row shape of every dynamically provisioned
per-project user table.  `projectId` carries the bytes produced by
`uuid.Parse` of the project identifier string. -/
structure ProjectUser where
  id : Nat
  email : String
  password : String
  firstName : String
  lastName : String
  active : Bool
  oauthID : String
  oauthType : String
  accessToken : String
  refreshToken : String
  tokenExpiry : Nat
  createdAt : Nat
  updatedAt : Nat
  roleId : Nat
  projectId : List Nat
  deleted : Bool
  deriving Repr, DecidableEq

/-- `models.DisplayUser`, the tenant-agnostic representation the project
user store returns (the Go code stringifies the ids; the embedding keeps
them structured). -/
structure DisplayUser where
  id : Nat
  email : String
  firstName : String
  lastName : String
  active : Bool
  roleID : Nat
  projectID : List Nat
  createdAt : Nat
  updatedAt : Nat
  deriving Repr, DecidableEq

/-- Conversion used at every return site of the project user store. -/
def displayOf (u : ProjectUser) : DisplayUser :=
  { id := u.id
    email := u.email
    firstName := u.firstName
    lastName := u.lastName
    active := u.active
    roleID := u.roleId
    projectID := u.projectId
    createdAt := u.createdAt
    updatedAt := u.updatedAt }

/-! ## Project provisioning (projects.Manager, src/unnamed/part_015)

The provisioning state holds the visible project rows of the global
project table and the set of existing tenant user tables.  The
transaction built by `DB.Begin()` is modelled by mutating a copy of the
state; `Rollback` discards the copy, `Commit` installs it. -/

/-- Visible project rows plus the catalogue of existing tenant tables. -/
structure ProvState where
  projects : List Project
  tables : List String
  deriving Repr, DecidableEq

/-- Failure injection for the statements of `Manager.CreateProject`:
the row insert, the tenant-table creation, the two index creations, and
the final commit. -/
structure CreateFaults where
  failInsert : Bool
  failTable : Bool
  failEmailIdx : Bool
  failOAuthIdx : Bool
  failCommit : Bool
  deriving Repr, DecidableEq

/-- No injected failure. -/
def CreateFaults.none : CreateFaults :=
  ⟨false, false, false, false, false⟩

/-- `projects.Manager.CreateProject`.  Mirrors the Go control flow:
duplicate-slug check against committed state, then inside one
transaction the row insert, `CreateTable` (which fails if the table
already exists, as `CREATE TABLE` does), the email index, the OAuth-id
index, and the commit.  Every failure rolls the transaction back,
leaving the committed state untouched. -/
def createProject (st : ProvState) (name description uniqueID : String)
    (freshId now : Nat) (f : CreateFaults) : Except String Project × ProvState :=
  if st.projects.any (fun p => p.uniqueID == uniqueID) then
    (Except.error "project with this unique ID already exists", st)
  else
    let project : Project :=
      { id := freshId, name := name, description := description,
        uniqueID := uniqueID, createdAt := now, updatedAt := now }
    if f.failInsert then
      (Except.error "failed to create project", st)
    else
      let tx1 : ProvState := { st with projects := st.projects ++ [project] }
      let tableName := managerCreateTableName uniqueID
      if tx1.tables.contains tableName || f.failTable then
        (Except.error "failed to create project resources", st)
      else
        let tx2 : ProvState := { tx1 with tables := tx1.tables ++ [tableName] }
        if f.failEmailIdx then
          (Except.error "failed to create project resources", st)
        else if f.failOAuthIdx then
          (Except.error "failed to create project resources", st)
        else if f.failCommit then
          (Except.error "failed to create project", st)
        else
          (Except.ok project, tx2)

/-- Failure injection for the statements of `Manager.DeleteProject`. -/
structure DeleteFaults where
  failDeleteRow : Bool
  failDrop : Bool
  failCommit : Bool
  deriving Repr, DecidableEq

/-- No injected failure. -/
def DeleteFaults.none : DeleteFaults :=
  ⟨false, false, false⟩

/-- `projects.Manager.DeleteProject`.  Inside one transaction: load the
project by id (NotFound if absent), soft-delete the row, drop the tenant
table (gorm emits `DROP TABLE IF EXISTS`, so an absent table is not an
error by itself), commit.  Every failure rolls back. -/
def deleteProject (st : ProvState) (id : Nat) (f : DeleteFaults) :
    Except String Unit × ProvState :=
  match st.projects.find? (fun p => p.id == id) with
  | Option.none => (Except.error "project not found", st)
  | some project =>
    if f.failDeleteRow then
      (Except.error "failed to delete project", st)
    else
      let tx1 : ProvState :=
        { st with projects := st.projects.filter (fun p => !(p.id == project.id)) }
      let tableName := managerDeleteTableName project.uniqueID
      if f.failDrop then
        (Except.error "failed to delete project resources", st)
      else
        let tx2 : ProvState :=
          { tx1 with tables := tx1.tables.filter (fun t => !(t == tableName)) }
        if f.failCommit then
          (Except.error "failed to delete project", st)
        else
          (Except.ok (), tx2)

/-! ## Tenant user store (projectusers, src/unnamed/part_023) -/

/-- `oauth.UserInfo` as consumed by the project-user store (including the
`Provider` field the store reads). -/
structure UserInfo where
  id : String
  email : String
  firstName : String
  lastName : String
  provider : String
  deriving Repr, DecidableEq

/-- The dynamic tenant tables: an association of physical table name to
its rows.  A name absent from the association is a table that does not
exist, and any statement addressed to it fails as a datastore error. -/
structure TenantDB where
  tables : List (String × List ProjectUser)
  deriving Repr, DecidableEq

/-- The rows of a table, if the table exists. -/
def getTable (db : TenantDB) (name : String) : Option (List ProjectUser) :=
  db.tables.lookup name

/-- Replace the rows of an existing table. -/
def setTable (db : TenantDB) (name : String) (rows : List ProjectUser) : TenantDB :=
  ⟨db.tables.map fun kv =>
    match kv.1 == name with
    | true => (kv.1, rows)
    | false => kv⟩

/-- gorm's default scope: soft-deleted rows are invisible.  `First` with a
`WHERE email = ?` filter. -/
def findByEmail (rows : List ProjectUser) (email : String) : Option ProjectUser :=
  rows.find? fun u => !u.deleted && u.email == email

/-- gorm `Save` on a loaded row: update by primary key. -/
def saveRow (rows : List ProjectUser) (u : ProjectUser) : List ProjectUser :=
  rows.map fun r =>
    match r.id == u.id with
    | true => u
    | false => r

/-- `ProjectUserManagerImpl.CreateProjectUser`.  Addresses the table named
by `getProjectUserTableName`; duplicate-email check (Conflict), bcrypt
hash, `uuid.Parse` of the project identifier, then the insert.  The row is
stamped `Active`, with `TokenExpiry` set to `time.Now().Add(24 * time.Hour)`. -/
def createProjectUser (db : TenantDB) (projectID email password firstName lastName : String)
    (roleID : Nat) (now freshId : Nat) : Except String DisplayUser × TenantDB :=
  let tableName := getProjectUserTableName projectID
  match getTable db tableName with
  | Option.none => (Except.error "internal server error", db)
  | some rows =>
    match findByEmail rows email with
    | some _ => (Except.error "user with this email already exists in this project", db)
    | Option.none =>
      let hashed := bcryptGenerateFromPassword password
      match uuidParse projectID with
      | Option.none => (Except.error "invalid project ID format", db)
      | some projectUUID =>
        let user : ProjectUser :=
          { id := freshId, email := email, password := hashed,
            firstName := firstName, lastName := lastName, active := true,
            oauthID := "", oauthType := "", accessToken := "", refreshToken := "",
            tokenExpiry := now + 24 * 60 * 60,
            createdAt := now, updatedAt := now,
            roleId := roleID, projectId := projectUUID, deleted := false }
        (Except.ok (displayOf user), setTable db tableName (rows ++ [user]))

/-- `ProjectUserManagerImpl.CreateOrUpdateOAuthProjectUser`.  Look up by
email in the tenant table; if found, overwrite name and OAuth linkage and
save; if not, parse the project id and insert a fresh active row with no
password. -/
def createOrUpdateOAuthProjectUser (db : TenantDB) (projectID : String)
    (userInfo : UserInfo) (roleID : Nat) (now freshId : Nat) :
    Except String DisplayUser × TenantDB :=
  let tableName := getProjectUserTableName projectID
  match getTable db tableName with
  | Option.none => (Except.error "internal server error", db)
  | some rows =>
    match findByEmail rows userInfo.email with
    | some existingUser =>
      let updated : ProjectUser :=
        { existingUser with
          firstName := userInfo.firstName, lastName := userInfo.lastName,
          oauthID := userInfo.id, oauthType := userInfo.provider,
          updatedAt := now }
      (Except.ok (displayOf updated), setTable db tableName (saveRow rows updated))
    | Option.none =>
      match uuidParse projectID with
      | Option.none => (Except.error "invalid project ID format", db)
      | some projectUUID =>
        let newUser : ProjectUser :=
          { id := freshId, email := userInfo.email, password := "",
            firstName := userInfo.firstName, lastName := userInfo.lastName,
            active := true, oauthID := userInfo.id, oauthType := userInfo.provider,
            accessToken := "", refreshToken := "", tokenExpiry := 0,
            createdAt := now, updatedAt := now,
            roleId := roleID, projectId := projectUUID, deleted := false }
        (Except.ok (displayOf newUser), setTable db tableName (rows ++ [newUser]))

/-! ## Global stores (users.Manager, roles.Manager) and login -/

/-- The single global tables shared by all tenants. -/
structure GlobalDB where
  users : List User
  roles : List Role
  policies : List Policy
  projects : List Project
  deriving Repr, DecidableEq

/-- Visible-row lookups on the global tables. -/
def findUserByEmail (db : GlobalDB) (email : String) : Option User :=
  db.users.find? fun u => !u.deleted && u.email == email

/-- `WHERE id = ?` lookup on the global role table. -/
def findRoleById (db : GlobalDB) (id : Nat) : Option Role :=
  db.roles.find? fun r => !r.deleted && r.id == id

/-- `WHERE id = ?` lookup on the global project table. -/
def findProjectById (db : GlobalDB) (id : Nat) : Option Project :=
  db.projects.find? fun p => p.id == id

/-- `roles.Manager.GetExpirationTime`: load the role by id and return its
configured `Expiration` duration. -/
def getExpirationTime (db : GlobalDB) (id : Nat) : Except String Nat :=
  match findRoleById db id with
  | Option.none => Except.error "role not found"
  | some role => Except.ok role.expiration

/-- `users.Manager.CreateUser` (the global, non-tenant store): duplicate
email check, role and project existence checks, bcrypt hash, then
`GetExpirationTime` on the supplied role and
`ExpirationTime = time.Now().Add(duration)` on the stored row. -/
def createUser (db : GlobalDB) (email password firstName lastName : String)
    (roleID projectID : Nat) (now freshId : Nat) : Except String User × GlobalDB :=
  if (findUserByEmail db email).isSome then
    (Except.error "user with this email already exists", db)
  else
    match findRoleById db roleID with
    | Option.none => (Except.error "role not found", db)
    | some _ =>
      match findProjectById db projectID with
      | Option.none => (Except.error "project not found", db)
      | some _ =>
        let hashed := bcryptGenerateFromPassword password
        match getExpirationTime db roleID with
        | Except.error _ => (Except.error "failed to get expiration time", db)
        | Except.ok expirationTimeDuration =>
          let expirationTime := now + expirationTimeDuration
          let user : User :=
            { id := freshId, email := email, password := hashed,
              firstName := firstName, lastName := lastName, active := true,
              oauthID := "", oauthType := "", tokenExpiry := 0,
              expirationTime := expirationTime,
              roleId := roleID, projectId := projectID, deleted := false }
          (Except.ok user, { db with users := db.users ++ [user] })

/-- `auth.GenerateToken` (internal/auth/tokens.go), modelled as the claim
tuple it signs; signature bytes are irrelevant to every claim. -/
def generateToken (userID : Nat) (email role : String) : String :=
  "jwt:" ++ toString userID ++ ":" ++ email ++ ":" ++ role

/-- The response shape of `AuthEndpoint.Login`. -/
structure LoginResponse where
  token : String
  userID : Nat
  email : String
  firstName : String
  lastName : String
  role : String
  deriving Repr, DecidableEq

/-- `AuthEndpoint.Login` (internal/transport/endpoints/auth.go): find the
user by email (generic error if absent), reject inactive accounts,
compare the bcrypt hash (generic error on mismatch), resolve the role and
issue a token. -/
def login (db : GlobalDB) (email password : String) : Except String LoginResponse :=
  match findUserByEmail db email with
  | Option.none => Except.error "invalid email or password"
  | some user =>
    if !user.active then
      Except.error "account is inactive"
    else if !bcryptCompareHashAndPassword user.password password then
      Except.error "invalid email or password"
    else
      match findRoleById db user.roleId with
      | Option.none => Except.error "internal server error"
      | some role =>
        Except.ok
          { token := generateToken user.id user.email role.name
            userID := user.id, email := user.email,
            firstName := user.firstName, lastName := user.lastName,
            role := role.name }

/-! ## Authorization (internal/auth/middleware.go, PolicyMiddleware) -/

/-- Outcome of the policy middleware for a request that reached it. -/
inductive Decision where
  | allow : Decision
  | forbidden : Decision
  | internalError : Decision
  deriving Repr, DecidableEq

/-- The policy filter `WHERE roles_id = ? AND resource = ?`. -/
def policiesFor (db : GlobalDB) (roleId : Nat) (resource : String) : List Policy :=
  db.policies.filter fun p => !p.deleted && p.rolesId == roleId && p.resource == resource

/-- The allow loop of `PolicyMiddleware`: some fetched policy has
`Action == "*" || Action == action` and `Effect == "allow"`. -/
def anyPolicyAllows (policies : List Policy) (action : String) : Bool :=
  policies.any fun policy =>
    (policy.action == "*" || policy.action == action) && policy.effect == "allow"

/-- `PolicyMiddleware`: resolve the user's role (Internal on a lookup
failure, which includes a missing role row), bypass for `SuperAdmin`,
otherwise fetch the role's policies for the resource and allow iff one of
them allows the action. -/
def policyDecision (db : GlobalDB) (user : User) (resource action : String) : Decision :=
  match findRoleById db user.roleId with
  | Option.none => Decision.internalError
  | some role =>
    if role.name == "SuperAdmin" then
      Decision.allow
    else if anyPolicyAllows (policiesFor db user.roleId resource) action then
      Decision.allow
    else
      Decision.forbidden

/-! ## Derived observations used by the claims -/

/-- Number of visible rows of a tenant table carrying a given email. -/
def countEmail (rows : List ProjectUser) (email : String) : Nat :=
  (rows.filter fun u => !u.deleted && u.email == email).length

/-- Whether a visible project row with the given slug exists. -/
def hasProjectWithSlug (st : ProvState) (uniqueID : String) : Bool :=
  st.projects.any fun p => p.uniqueID == uniqueID

/-- Whether a visible project row with the given id exists. -/
def hasProjectWithId (st : ProvState) (id : Nat) : Bool :=
  st.projects.any fun p => p.id == id

/-! ## Concrete sample data for witnesses and counterexamples -/

/-- A canonical-format project identifier accepted by `uuid.Parse`. -/
def sampleProjectA : String := "11111111-1111-1111-1111-111111111111"

/-- A second, distinct canonical-format project identifier. -/
def sampleProjectB : String := "22222222-2222-2222-2222-222222222222"

/-- Tenant database holding empty user tables for the two sample projects. -/
def sampleTenantDB : TenantDB :=
  ⟨[(getProjectUserTableName sampleProjectA, []),
    (getProjectUserTableName sampleProjectB, [])]⟩

/-- OAuth user info as a provider callback would deliver it. -/
def sampleUserInfo : UserInfo :=
  { id := "gh-77", email := "dev@example.com", firstName := "Dev",
    lastName := "Eloper", provider := "github" }

/-- An ordinary (non-SuperAdmin) role. -/
def devRole : Role :=
  { id := 1, name := "Developer", description := "", expiration := 3600,
    deleted := false }

/-- The distinguished SuperAdmin role. -/
def superRole : Role :=
  { id := 2, name := "SuperAdmin", description := "", expiration := 0,
    deleted := false }

/-- An allow policy for reads on the `projects` resource, attached to the
developer role. -/
def readProjectsPolicy : Policy :=
  { id := 10, name := "ReadProjects", description := "", resource := "projects",
    action := "read", effect := "allow", rolesId := 1, deleted := false }

/-- A user holding the developer role. -/
def devUser : User :=
  { id := 100, email := "dev@example.com", password := "", firstName := "",
    lastName := "", active := true, oauthID := "", oauthType := "",
    tokenExpiry := 0, expirationTime := 0, roleId := 1, projectId := 0,
    deleted := false }

/-- A user holding the SuperAdmin role. -/
def adminUser : User :=
  { id := 101, email := "admin@example.com", password := "", firstName := "",
    lastName := "", active := true, oauthID := "", oauthType := "",
    tokenExpiry := 0, expirationTime := 0, roleId := 2, projectId := 0,
    deleted := false }

/-- An inactive user whose stored hash matches the password `pw`. -/
def inactiveUser : User :=
  { id := 102, email := "sleepy@example.com",
    password := bcryptGenerateFromPassword "pw", firstName := "", lastName := "",
    active := false, oauthID := "", oauthType := "", tokenExpiry := 0,
    expirationTime := 0, roleId := 1, projectId := 0, deleted := false }

/-- An active user whose stored hash matches the password `pw`. -/
def activeUser : User :=
  { id := 103, email := "awake@example.com",
    password := bcryptGenerateFromPassword "pw", firstName := "", lastName := "",
    active := true, oauthID := "", oauthType := "", tokenExpiry := 0,
    expirationTime := 0, roleId := 1, projectId := 0, deleted := false }

/-- Global database exercising the authentication and authorization paths. -/
def sampleGlobalDB : GlobalDB :=
  { users := [devUser, adminUser, inactiveUser, activeUser]
    roles := [devRole, superRole]
    policies := [readProjectsPolicy]
    projects := [{ id := 7, name := "Acme", description := "", uniqueID := "acme",
                   createdAt := 0, updatedAt := 0 }] }

/-- Provisioning state holding one unrelated project and its table. -/
def sampleProvState : ProvState :=
  { projects := [{ id := 7, name := "Acme", description := "", uniqueID := "acme",
                   createdAt := 0, updatedAt := 0 }]
    tables := [managerCreateTableName "acme"] }

end UserMgmt

namespace UserMgmt

/-! ## Supporting lemmas -/

/-- bcrypt comparison against an empty stored hash never succeeds: every
generated hash carries the nonempty version/cost prefix. -/
theorem bcryptCompare_empty_hash (password : String) :
    bcryptCompareHashAndPassword "" password = false := by
  unfold bcryptCompareHashAndPassword bcryptGenerateFromPassword
  rw [beq_eq_false_iff_ne]
  intro h
  have hd := congrArg String.data h
  rw [String.data_append] at hd
  simp at hd

/-- Distinct project identifiers name distinct physical tables. -/
theorem getProjectUserTableName_inj {a b : String}
    (h : getProjectUserTableName a = getProjectUserTableName b) : a = b := by
  unfold getProjectUserTableName at h
  have hd := congrArg String.data h
  simp only [String.data_append] at hd
  have h1 := List.append_cancel_right hd
  have h2 := List.append_cancel_left h1
  exact String.ext h2

/-- Writing an existing table's rows makes them its contents. -/
theorem lookup_map_set (l : List (String × List ProjectUser)) (name : String)
    (rows : List ProjectUser) (h : (l.lookup name).isSome = true) :
    ((l.map fun kv =>
        match kv.1 == name with
        | true => (kv.1, rows)
        | false => kv).lookup name)
      = some rows := by
  induction l with
  | nil => simp [List.lookup] at h
  | cons kv t ih =>
    obtain ⟨k, v⟩ := kv
    by_cases hk : k = name
    · subst hk
      simp only [List.map, beq_self_eq_true, List.lookup]
    · have hk1 : ((k == name) : Bool) = false := by rw [beq_eq_false_iff_ne]; exact hk
      have hk2 : ((name == k) : Bool) = false := by
        rw [beq_eq_false_iff_ne]; exact fun hh => hk hh.symm
      simp only [List.lookup, hk2, List.map, hk1] at h ⊢
      exact ih h

/-- Writing one table leaves every other table untouched. -/
theorem lookup_map_set_ne (l : List (String × List ProjectUser)) (name other : String)
    (rows : List ProjectUser) (h : other ≠ name) :
    ((l.map fun kv =>
        match kv.1 == name with
        | true => (kv.1, rows)
        | false => kv).lookup other)
      = l.lookup other := by
  induction l with
  | nil => simp
  | cons kv t ih =>
    obtain ⟨k, v⟩ := kv
    by_cases hk : k = name
    · subst hk
      have hok : ((other == k) : Bool) = false := by
        rw [beq_eq_false_iff_ne]; exact h
      simp only [List.map, beq_self_eq_true, List.lookup, hok]
      exact ih
    · have hk1 : ((k == name) : Bool) = false := by rw [beq_eq_false_iff_ne]; exact hk
      by_cases ho : other = k
      · subst ho
        simp only [List.map, hk1, List.lookup, beq_self_eq_true]
      · have hok : ((other == k) : Bool) = false := by rw [beq_eq_false_iff_ne]; exact ho
        simp only [List.map, hk1, List.lookup, hok]
        exact ih

/-- `setTable` on an existing table installs the new rows. -/
theorem getTable_setTable_self (db : TenantDB) (name : String)
    (rows : List ProjectUser) (h : (getTable db name).isSome = true) :
    getTable (setTable db name rows) name = some rows :=
  lookup_map_set db.tables name rows h

/-- `setTable` never leaks into a differently named table. -/
theorem getTable_setTable_ne (db : TenantDB) (name other : String)
    (rows : List ProjectUser) (h : other ≠ name) :
    getTable (setTable db name rows) other = getTable db other :=
  lookup_map_set_ne db.tables name other rows h

/-- Success shape of `CreateProjectUser`: fresh email, existing table and
parseable project id yield an appended active row with the fixed 24-hour
token expiry. -/
theorem createProjectUser_ok (db : TenantDB) (projectID e pw fn ln : String)
    (roleID now freshId : Nat) (rows : List ProjectUser) (bs : List Nat)
    (htab : getTable db (getProjectUserTableName projectID) = some rows)
    (hnone : findByEmail rows e = Option.none)
    (hbs : uuidParse projectID = some bs) :
    ∃ u : ProjectUser,
      createProjectUser db projectID e pw fn ln roleID now freshId =
        (Except.ok (displayOf u),
         setTable db (getProjectUserTableName projectID) (rows ++ [u])) ∧
      u.email = e ∧ u.deleted = false ∧ u.id = freshId ∧
      u.tokenExpiry = now + 24 * 60 * 60 ∧ u.active = true := by
  unfold createProjectUser
  simp only [htab, hnone, hbs]
  exact ⟨_, rfl, rfl, rfl, rfl, rfl, rfl⟩

/-- Conflict shape of `CreateProjectUser`: a visible row with the same
email aborts the call and leaves the store untouched. -/
theorem createProjectUser_conflict (db : TenantDB) (projectID e pw fn ln : String)
    (roleID now freshId : Nat) (rows : List ProjectUser) (u : ProjectUser)
    (htab : getTable db (getProjectUserTableName projectID) = some rows)
    (hfound : findByEmail rows e = some u) :
    createProjectUser db projectID e pw fn ln roleID now freshId =
      (Except.error "user with this email already exists in this project", db) := by
  unfold createProjectUser
  simp only [htab, hfound]

/-- Create branch of the OAuth upsert: no visible row with the email means
a fresh active row with no password is appended. -/
theorem createOrUpdateOAuth_create (db : TenantDB) (projectID : String) (ui : UserInfo)
    (roleID now freshId : Nat) (rows : List ProjectUser) (bs : List Nat)
    (htab : getTable db (getProjectUserTableName projectID) = some rows)
    (hnone : findByEmail rows ui.email = Option.none)
    (hbs : uuidParse projectID = some bs) :
    ∃ u : ProjectUser,
      createOrUpdateOAuthProjectUser db projectID ui roleID now freshId =
        (Except.ok (displayOf u),
         setTable db (getProjectUserTableName projectID) (rows ++ [u])) ∧
      u.email = ui.email ∧ u.deleted = false ∧ u.id = freshId ∧
      u.password = "" ∧ u.active = true := by
  unfold createOrUpdateOAuthProjectUser
  simp only [htab, hnone, hbs]
  exact ⟨_, rfl, rfl, rfl, rfl, rfl, rfl⟩

/-- Update branch of the OAuth upsert: a visible row with the email is
saved back in place with the same id, email and tombstone state. -/
theorem createOrUpdateOAuth_update (db : TenantDB) (projectID : String) (ui : UserInfo)
    (roleID now freshId : Nat) (rows : List ProjectUser) (u : ProjectUser)
    (htab : getTable db (getProjectUserTableName projectID) = some rows)
    (hfound : findByEmail rows ui.email = some u) :
    ∃ w : ProjectUser,
      createOrUpdateOAuthProjectUser db projectID ui roleID now freshId =
        (Except.ok (displayOf w),
         setTable db (getProjectUserTableName projectID) (saveRow rows w)) ∧
      w.id = u.id ∧ w.email = u.email ∧ w.deleted = u.deleted := by
  unfold createOrUpdateOAuthProjectUser
  simp only [htab, hfound]
  exact ⟨_, rfl, rfl, rfl, rfl⟩

/-- A freshly appended visible row is found by its email when no earlier
row matches. -/
theorem findByEmail_append_self (rows : List ProjectUser) (u : ProjectUser) (e : String)
    (hnone : findByEmail rows e = Option.none) (hu : u.email = e)
    (hd : u.deleted = false) :
    findByEmail (rows ++ [u]) e = some u := by
  unfold findByEmail at hnone ⊢
  rw [List.find?_append, hnone]
  simp [List.find?, hu, hd]

end UserMgmt

namespace UserMgmt

/-! ## Claim theorems -/

/-- C1: for every project creation attempt in which a step after the
project-row insert fails (tenant table creation, email index creation, or
OAuth-id index creation), the whole transaction is rolled back: the state
is exactly the initial one, so no project row with that slug and no
tenant table for that slug exist afterwards; with no failure injected,
both the row and the table exist. -/
theorem createProject_atomicity (st : ProvState) (name description uniqueID : String)
    (freshId now : Nat)
    (hnodup : hasProjectWithSlug st uniqueID = false)
    (hnotab : getProjectUserTableName uniqueID ∉ st.tables) :
    (∀ (f : CreateFaults) (e : String),
      (createProject st name description uniqueID freshId now f).1 = Except.error e →
      ((createProject st name description uniqueID freshId now f).2 = st ∧
       hasProjectWithSlug (createProject st name description uniqueID freshId now f).2 uniqueID
         = false ∧
       getProjectUserTableName uniqueID
         ∉ (createProject st name description uniqueID freshId now f).2.tables)) ∧
    (∀ f : CreateFaults, f.failInsert = false →
      (f.failTable = true ∨ f.failEmailIdx = true ∨ f.failOAuthIdx = true) →
      ∃ e, (createProject st name description uniqueID freshId now f).1 = Except.error e) ∧
    (∃ p : Project,
      (createProject st name description uniqueID freshId now CreateFaults.none).1
        = Except.ok p ∧
      p.uniqueID = uniqueID ∧
      hasProjectWithSlug
        (createProject st name description uniqueID freshId now CreateFaults.none).2 uniqueID
        = true ∧
      getProjectUserTableName uniqueID
        ∈ (createProject st name description uniqueID freshId now CreateFaults.none).2.tables) := by
  have hb : st.projects.any (fun p => p.uniqueID == uniqueID) = false := hnodup
  have hnotab2 : managerCreateTableName uniqueID ∉ st.tables := hnotab
  refine ⟨?_, ?_, ?_⟩
  · rintro ⟨fi, ft, fe, fo, fc⟩ e
    cases fi <;> cases ft <;> cases fe <;> cases fo <;> cases fc <;>
      simp [createProject, hb, hnodup, hnotab, hnotab2]
  · rintro ⟨fi, ft, fe, fo, fc⟩ hfi hfail
    simp only at hfi hfail
    subst hfi
    refine ⟨"failed to create project resources", ?_⟩
    rcases hfail with h | h | h
    · subst h
      cases fe <;> cases fo <;> cases fc <;>
        simp [createProject, hb, hnotab2]
    · subst h
      cases ft <;> cases fo <;> cases fc <;>
        simp [createProject, hb, hnotab2]
    · subst h
      cases ft <;> cases fe <;> cases fc <;>
        simp [createProject, hb, hnotab2]
  · have hsucc : createProject st name description uniqueID freshId now CreateFaults.none =
        (Except.ok { id := freshId, name := name, description := description,
                     uniqueID := uniqueID, createdAt := now, updatedAt := now },
         { projects := st.projects ++
             [{ id := freshId, name := name, description := description,
                uniqueID := uniqueID, createdAt := now, updatedAt := now }],
           tables := st.tables ++ [managerCreateTableName uniqueID] }) := by
      simp [createProject, CreateFaults.none, hb, hnotab2]
    refine ⟨{ id := freshId, name := name, description := description,
              uniqueID := uniqueID, createdAt := now, updatedAt := now }, ?_, rfl, ?_, ?_⟩
    · rw [hsucc]
    · rw [hsucc]
      unfold hasProjectWithSlug
      simp
    · rw [hsucc]
      simp [getProjectUserTableName, managerCreateTableName]

/-- C1 witness: on a concrete state, an injected table-creation failure
produces an error while a fault-free run creates both the row and the
table. -/
theorem createProject_atomicity_witness :
    (∃ e, (createProject sampleProvState "Beta" "d" "beta" 9 0
        ⟨false, true, false, false, false⟩).1 = Except.error e) ∧
    (∃ p : Project,
      (createProject sampleProvState "Beta" "d" "beta" 9 0 CreateFaults.none).1
        = Except.ok p ∧
      p.uniqueID = "beta" ∧
      hasProjectWithSlug
        (createProject sampleProvState "Beta" "d" "beta" 9 0 CreateFaults.none).2 "beta"
        = true ∧
      getProjectUserTableName "beta"
        ∈ (createProject sampleProvState "Beta" "d" "beta" 9 0 CreateFaults.none).2.tables) :=
  ⟨(createProject_atomicity sampleProvState "Beta" "d" "beta" 9 0 (by decide)
      (by decide)).2.1 ⟨false, true, false, false, false⟩ rfl (Or.inl rfl),
   (createProject_atomicity sampleProvState "Beta" "d" "beta" 9 0 (by decide)
      (by decide)).2.2⟩

/-- C2: there is a single deterministic, pure table-naming function
mapping a slug to `project_<slug>_users`, and every component that
constructs a tenant table name (the provisioning manager's create and
delete paths, the project service, and the tenant user store) produces
exactly the same name for the same identifier. -/
theorem tableName_single_source (s : String) :
    managerCreateTableName s = getProjectUserTableName s ∧
    managerDeleteTableName s = getProjectUserTableName s ∧
    projectServiceTableName s = getProjectUserTableName s ∧
    getProjectUserTableName s = "project_" ++ s ++ "_users" :=
  ⟨rfl, rfl, rfl, rfl⟩

/-- C3: with both tenant tables provisioned and the email fresh in each,
creating the user in project A succeeds, creating the same email in a
distinct project B succeeds, and a second creation in A fails with the
conflict error while leaving the store exactly as it was. -/
theorem tenant_email_isolation
    (db : TenantDB) (A B e pw1 pw2 fn1 ln1 fn2 ln2 : String)
    (r1 r2 now1 now2 id1 id2 : Nat)
    (rowsA rowsB : List ProjectUser)
    (hAB : A ≠ B)
    (htA : getTable db (getProjectUserTableName A) = some rowsA)
    (htB : getTable db (getProjectUserTableName B) = some rowsB)
    (heA : findByEmail rowsA e = Option.none)
    (heB : findByEmail rowsB e = Option.none)
    (hpA : (uuidParse A).isSome = true)
    (hpB : (uuidParse B).isSome = true) :
    ∃ uA uB : DisplayUser,
      (createProjectUser db A e pw1 fn1 ln1 r1 now1 id1).1 = Except.ok uA ∧
      (createProjectUser (createProjectUser db A e pw1 fn1 ln1 r1 now1 id1).2
          B e pw2 fn2 ln2 r2 now2 id2).1 = Except.ok uB ∧
      (createProjectUser
          (createProjectUser (createProjectUser db A e pw1 fn1 ln1 r1 now1 id1).2
            B e pw2 fn2 ln2 r2 now2 id2).2
          A e pw1 fn1 ln1 r1 now1 id1).1
        = Except.error "user with this email already exists in this project" ∧
      (createProjectUser
          (createProjectUser (createProjectUser db A e pw1 fn1 ln1 r1 now1 id1).2
            B e pw2 fn2 ln2 r2 now2 id2).2
          A e pw1 fn1 ln1 r1 now1 id1).2
        = (createProjectUser (createProjectUser db A e pw1 fn1 ln1 r1 now1 id1).2
            B e pw2 fn2 ln2 r2 now2 id2).2 := by
  obtain ⟨bsA, hbsA⟩ := Option.isSome_iff_exists.mp hpA
  obtain ⟨bsB, hbsB⟩ := Option.isSome_iff_exists.mp hpB
  have hneBA : getProjectUserTableName B ≠ getProjectUserTableName A :=
    fun hh => hAB (getProjectUserTableName_inj hh).symm
  have hneAB : getProjectUserTableName A ≠ getProjectUserTableName B :=
    fun hh => hAB (getProjectUserTableName_inj hh)
  obtain ⟨uA, h1, huAe, huAd, _⟩ :=
    createProjectUser_ok db A e pw1 fn1 ln1 r1 now1 id1 rowsA bsA htA heA hbsA
  have htB1 : getTable (createProjectUser db A e pw1 fn1 ln1 r1 now1 id1).2
      (getProjectUserTableName B) = some rowsB := by
    rw [h1, getTable_setTable_ne db _ _ _ hneBA]
    exact htB
  obtain ⟨uB, h2, huBe, huBd, _⟩ :=
    createProjectUser_ok (createProjectUser db A e pw1 fn1 ln1 r1 now1 id1).2
      B e pw2 fn2 ln2 r2 now2 id2 rowsB bsB htB1 heB hbsB
  have htA2 : getTable (createProjectUser (createProjectUser db A e pw1 fn1 ln1 r1 now1 id1).2
      B e pw2 fn2 ln2 r2 now2 id2).2 (getProjectUserTableName A) = some (rowsA ++ [uA]) := by
    rw [h2]
    rw [getTable_setTable_ne _ _ _ _ hneAB]
    rw [h1]
    exact getTable_setTable_self db _ _ (by rw [htA]; rfl)
  have hfindA := findByEmail_append_self rowsA uA e heA huAe huAd
  have h3 := createProjectUser_conflict
    (createProjectUser (createProjectUser db A e pw1 fn1 ln1 r1 now1 id1).2
      B e pw2 fn2 ln2 r2 now2 id2).2 A e pw1 fn1 ln1 r1 now1 id1 (rowsA ++ [uA]) uA
    htA2 hfindA
  exact ⟨displayOf uA, displayOf uB, by rw [h1], by rw [h2], by rw [h3], by rw [h3]⟩

/-- C3 witness: the isolation scenario run on two concrete empty tenant
tables. -/
theorem tenant_email_isolation_witness :
    ∃ uA uB : DisplayUser,
      (createProjectUser sampleTenantDB sampleProjectA "dup@example.com" "p1" "F" "L"
        1 0 70).1 = Except.ok uA ∧
      (createProjectUser (createProjectUser sampleTenantDB sampleProjectA "dup@example.com"
          "p1" "F" "L" 1 0 70).2 sampleProjectB "dup@example.com" "p2" "G" "M"
        2 0 71).1 = Except.ok uB ∧
      (createProjectUser
          (createProjectUser (createProjectUser sampleTenantDB sampleProjectA
              "dup@example.com" "p1" "F" "L" 1 0 70).2 sampleProjectB "dup@example.com"
            "p2" "G" "M" 2 0 71).2
          sampleProjectA "dup@example.com" "p1" "F" "L" 1 0 70).1
        = Except.error "user with this email already exists in this project" ∧
      (createProjectUser
          (createProjectUser (createProjectUser sampleTenantDB sampleProjectA
              "dup@example.com" "p1" "F" "L" 1 0 70).2 sampleProjectB "dup@example.com"
            "p2" "G" "M" 2 0 71).2
          sampleProjectA "dup@example.com" "p1" "F" "L" 1 0 70).2
        = (createProjectUser (createProjectUser sampleTenantDB sampleProjectA
              "dup@example.com" "p1" "F" "L" 1 0 70).2 sampleProjectB "dup@example.com"
            "p2" "G" "M" 2 0 71).2 :=
  tenant_email_isolation sampleTenantDB sampleProjectA sampleProjectB "dup@example.com"
    "p1" "p2" "F" "L" "G" "M" 1 2 0 0 70 71 [] [] (by decide) (by decide) (by decide)
    rfl rfl (by decide) (by decide)

end UserMgmt

namespace UserMgmt

/-- C4: for a user whose resolved role is not SuperAdmin, the policy
middleware allows the action if and only if some visible policy attached
to the user's role has the requested resource, effect `allow`, and an
action equal to the requested one or to the wildcard; otherwise the
request is denied, and a deny-effect policy never overrides a matching
allow. -/
theorem policy_allow_iff (db : GlobalDB) (user : User) (resource action : String)
    (role : Role) (hrole : findRoleById db user.roleId = some role)
    (hname : role.name ≠ "SuperAdmin") :
    policyDecision db user resource action = Decision.allow ↔
      ∃ p ∈ db.policies, p.deleted = false ∧ p.rolesId = user.roleId ∧
        p.resource = resource ∧ p.effect = "allow" ∧
        (p.action = "*" ∨ p.action = action) := by
  unfold policyDecision
  rw [hrole]
  have hbeq : (role.name == "SuperAdmin") = false := by
    rw [beq_eq_false_iff_ne]; exact hname
  simp only [hbeq, Bool.false_eq_true, if_false]
  have hstep : (if anyPolicyAllows (policiesFor db user.roleId resource) action = true
      then Decision.allow else Decision.forbidden) = Decision.allow ↔
      anyPolicyAllows (policiesFor db user.roleId resource) action = true := by
    by_cases h : anyPolicyAllows (policiesFor db user.roleId resource) action = true <;>
      simp [h]
  rw [hstep]
  unfold anyPolicyAllows policiesFor
  rw [List.any_eq_true]
  constructor
  · rintro ⟨p, hp, hcond⟩
    rw [List.mem_filter] at hp
    obtain ⟨hmem, hfilt⟩ := hp
    simp only [Bool.and_eq_true, Bool.or_eq_true, Bool.not_eq_true', beq_iff_eq] at hfilt hcond
    exact ⟨p, hmem, hfilt.1.1, hfilt.1.2, hfilt.2, hcond.2, hcond.1⟩
  · rintro ⟨p, hmem, hdel, hrid, hres, heff, hact⟩
    refine ⟨p, ?_, ?_⟩
    · rw [List.mem_filter]
      refine ⟨hmem, ?_⟩
      simp [hdel, hrid, hres]
    · simp [heff]
      rcases hact with h | h <;> simp [h]

/-- C4 witness: the developer role's read-allow policy authorizes a read
on the projects resource through the middleware. -/
theorem policy_allow_iff_witness :
    policyDecision sampleGlobalDB devUser "projects" "read" = Decision.allow :=
  (policy_allow_iff sampleGlobalDB devUser "projects" "read" devRole (by decide)
      (by decide)).mpr
    ⟨readProjectsPolicy, by decide, by decide, by decide, by decide, by decide,
      Or.inr (by decide)⟩

/-- C5: a user whose resolved role is named SuperAdmin is allowed every
resource and action pair unconditionally, whatever the policy table
holds. -/
theorem superAdmin_bypass (db : GlobalDB) (user : User) (resource action : String)
    (role : Role) (hrole : findRoleById db user.roleId = some role)
    (hname : role.name = "SuperAdmin") :
    policyDecision db user resource action = Decision.allow := by
  unfold policyDecision
  rw [hrole]
  simp [hname]

/-- C5 witness: the SuperAdmin user is allowed on a pair for which the
policy table is empty. -/
theorem superAdmin_bypass_witness :
    policyDecision { sampleGlobalDB with policies := [] } adminUser "roles" "delete"
      = Decision.allow :=
  superAdmin_bypass _ adminUser "roles" "delete" superRole (by decide) (by decide)

/-- C6 counterexample: at a concrete state holding an inactive user, login
returns the error `account is inactive`, which differs from the generic
`invalid email or password`, so the three failure cases do not all return
the identical generic error as the claim states. -/
theorem login_inactive_error_distinct :
    login sampleGlobalDB "sleepy@example.com" "pw" = Except.error "account is inactive" ∧
    "account is inactive" ≠ "invalid email or password" :=
  ⟨rfl, by decide⟩

/-- C6 amended: login fails in all three cases; the email-not-found case
and the password-mismatch case return the identical generic error
`invalid email or password`, but the inactive-account case returns the
distinct error `account is inactive`. -/
theorem login_failure_modes (db : GlobalDB) (email password : String) :
    (findUserByEmail db email = Option.none →
      login db email password = Except.error "invalid email or password") ∧
    (∀ u, findUserByEmail db email = some u → u.active = false →
      login db email password = Except.error "account is inactive") ∧
    (∀ u, findUserByEmail db email = some u → u.active = true →
      bcryptCompareHashAndPassword u.password password = false →
      login db email password = Except.error "invalid email or password") := by
  refine ⟨?_, ?_, ?_⟩
  · intro h; unfold login; rw [h]
  · intro u hu hact; unfold login; rw [hu]; simp [hact]
  · intro u hu hact hcmp; unfold login; rw [hu]; simp [hact, hcmp]

/-- C6 witness: the three failure modes exercised on a concrete state. -/
theorem login_failure_modes_witness :
    login sampleGlobalDB "ghost@example.com" "pw"
        = Except.error "invalid email or password" ∧
    login sampleGlobalDB "sleepy@example.com" "pw"
        = Except.error "account is inactive" ∧
    login sampleGlobalDB "awake@example.com" "wrong"
        = Except.error "invalid email or password" :=
  ⟨(login_failure_modes sampleGlobalDB "ghost@example.com" "pw").1 (by decide),
   (login_failure_modes sampleGlobalDB "sleepy@example.com" "pw").2.1 inactiveUser
     (by decide) (by decide),
   (login_failure_modes sampleGlobalDB "awake@example.com" "wrong").2.2 activeUser
     (by decide) (by decide) (by decide)⟩

end UserMgmt

namespace UserMgmt

/-- C7: calling the OAuth upsert twice with identical user info for the
same tenant is idempotent: the first call appends one row, the second
returns the same user id, and afterwards exactly one visible row with
that email exists in the tenant's table. -/
theorem oauth_upsert_idempotent
    (db : TenantDB) (projectID : String) (ui : UserInfo)
    (roleID now1 now2 f1 f2 : Nat) (rows : List ProjectUser)
    (htab : getTable db (getProjectUserTableName projectID) = some rows)
    (hnone : findByEmail rows ui.email = Option.none)
    (hparse : (uuidParse projectID).isSome = true)
    (hfresh : ∀ r ∈ rows, r.id ≠ f1) :
    ∃ u1 u2 : DisplayUser,
      (createOrUpdateOAuthProjectUser db projectID ui roleID now1 f1).1 = Except.ok u1 ∧
      (createOrUpdateOAuthProjectUser
        (createOrUpdateOAuthProjectUser db projectID ui roleID now1 f1).2
        projectID ui roleID now2 f2).1 = Except.ok u2 ∧
      u2.id = u1.id ∧
      countEmail ((getTable (createOrUpdateOAuthProjectUser
          (createOrUpdateOAuthProjectUser db projectID ui roleID now1 f1).2
          projectID ui roleID now2 f2).2 (getProjectUserTableName projectID)).getD [])
        ui.email = 1 := by
  obtain ⟨bs, hbs⟩ := Option.isSome_iff_exists.mp hparse
  obtain ⟨w1, h1, h1e, h1d, h1id, h1pw, h1a⟩ :=
    createOrUpdateOAuth_create db projectID ui roleID now1 f1 rows bs htab hnone hbs
  have htab1 : getTable (createOrUpdateOAuthProjectUser db projectID ui roleID now1 f1).2
      (getProjectUserTableName projectID) = some (rows ++ [w1]) := by
    rw [h1]
    exact getTable_setTable_self db _ _ (by rw [htab]; rfl)
  have hfind1 : findByEmail (rows ++ [w1]) ui.email = some w1 :=
    findByEmail_append_self rows w1 ui.email hnone h1e h1d
  obtain ⟨w2, h2, h2id, h2e, h2d⟩ :=
    createOrUpdateOAuth_update
      (createOrUpdateOAuthProjectUser db projectID ui roleID now1 f1).2
      projectID ui roleID now2 f2 (rows ++ [w1]) w1 htab1 hfind1
  have hsave : saveRow (rows ++ [w1]) w2 = rows ++ [w2] := by
    unfold saveRow
    rw [List.map_append]
    congr 1
    · have hpt : ∀ r ∈ rows,
          (match r.id == w2.id with | true => w2 | false => r) = id r := by
        intro r hr
        have hne : (r.id == w2.id) = false := by
          rw [beq_eq_false_iff_ne, h2id, h1id]
          exact hfresh r hr
        rw [hne]
        rfl
      rw [List.map_congr_left hpt, List.map_id]
    · have hw : (w1.id == w2.id) = true := by
        rw [h2id]
        exact beq_self_eq_true w1.id
      simp [List.map, hw]
  have htabFinal : getTable (createOrUpdateOAuthProjectUser
      (createOrUpdateOAuthProjectUser db projectID ui roleID now1 f1).2
      projectID ui roleID now2 f2).2 (getProjectUserTableName projectID)
      = some (rows ++ [w2]) := by
    rw [h2]
    rw [getTable_setTable_self _ _ _ (by rw [htab1]; rfl)]
    rw [hsave]
  have hcount : countEmail (rows ++ [w2]) ui.email = 1 := by
    unfold countEmail
    rw [List.filter_append]
    have hn : rows.find? (fun u => !u.deleted && u.email == ui.email) = Option.none := hnone
    have h0 : rows.filter (fun u => !u.deleted && u.email == ui.email) = [] := by
      rw [List.filter_eq_nil_iff]
      intro a ha
      exact List.find?_eq_none.mp hn a ha
    have hde : w2.deleted = false := h2d.trans h1d
    have hem : w2.email = ui.email := h2e.trans h1e
    have h1f : [w2].filter (fun u => !u.deleted && u.email == ui.email) = [w2] := by
      simp [List.filter, hde, hem]
    rw [h0, h1f]
    rfl
  refine ⟨displayOf w1, displayOf w2, by rw [h1], by rw [h2], ?_, ?_⟩
  · exact h2id
  · rw [htabFinal]
    exact hcount

/-- C7 witness: the double upsert on a concrete empty tenant table leaves
one row and reuses the first id. -/
theorem oauth_upsert_idempotent_witness :
    ∃ u1 u2 : DisplayUser,
      (createOrUpdateOAuthProjectUser sampleTenantDB sampleProjectA sampleUserInfo
        1 0 80).1 = Except.ok u1 ∧
      (createOrUpdateOAuthProjectUser
        (createOrUpdateOAuthProjectUser sampleTenantDB sampleProjectA sampleUserInfo
          1 0 80).2 sampleProjectA sampleUserInfo 1 5 81).1 = Except.ok u2 ∧
      u2.id = u1.id ∧
      countEmail ((getTable (createOrUpdateOAuthProjectUser
          (createOrUpdateOAuthProjectUser sampleTenantDB sampleProjectA sampleUserInfo
            1 0 80).2 sampleProjectA sampleUserInfo 1 5 81).2
          (getProjectUserTableName sampleProjectA)).getD [])
        sampleUserInfo.email = 1 :=
  oauth_upsert_idempotent sampleTenantDB sampleProjectA sampleUserInfo 1 0 5 80 81 []
    (by decide) rfl (by decide) (by intro r hr; simp at hr)

/-- C8 counterexample: the developer role is configured with a 3600-second
expiration, yet the tenant user store stamps the created credential with
creation time plus the fixed 24-hour constant (86400), not the role's
duration. -/
theorem tenant_expiry_fixed_counterexample :
    getExpirationTime sampleGlobalDB 1 = Except.ok 3600 ∧
    ((getTable (createProjectUser sampleTenantDB sampleProjectA "new@example.com" "pw"
        "F" "L" 1 0 60).2 (getProjectUserTableName sampleProjectA)).getD []).map
      (fun u => u.tokenExpiry) = [86400] ∧
    (86400 : Nat) ≠ 0 + 3600 :=
  ⟨rfl, by decide, by decide⟩

/-- C8 amended: the tenant user store stamps the created credential with
a fixed expiry of creation time plus 24 hours, ignoring the role; it is
the global user manager's CreateUser that looks up the supplied role's
configured expiration duration and stamps creation time plus that
duration. -/
theorem expiry_stamping
    (db : TenantDB) (projectID email pw fn ln : String) (roleID now freshId : Nat)
    (rows : List ProjectUser) (bs : List Nat)
    (htab : getTable db (getProjectUserTableName projectID) = some rows)
    (hnone : findByEmail rows email = Option.none)
    (hbs : uuidParse projectID = some bs) :
    (∃ u : ProjectUser,
      getTable (createProjectUser db projectID email pw fn ln roleID now freshId).2
        (getProjectUserTableName projectID) = some (rows ++ [u]) ∧
      u.tokenExpiry = now + 24 * 60 * 60) ∧
    (∀ (gdb : GlobalDB) (role : Role) (rid : Nat) (email2 pw2 fn2 ln2 : String)
       (pid now2 freshId2 : Nat) (project : Project),
      findUserByEmail gdb email2 = Option.none →
      findRoleById gdb rid = some role →
      findProjectById gdb pid = some project →
      ∃ u : User,
        (createUser gdb email2 pw2 fn2 ln2 rid pid now2 freshId2).1 = Except.ok u ∧
        u.expirationTime = now2 + role.expiration) := by
  constructor
  · obtain ⟨u, h1, _, _, _, hexp, _⟩ :=
      createProjectUser_ok db projectID email pw fn ln roleID now freshId rows bs
        htab hnone hbs
    refine ⟨u, ?_, hexp⟩
    rw [h1]
    exact getTable_setTable_self db _ _ (by rw [htab]; rfl)
  · intro gdb role rid email2 pw2 fn2 ln2 pid now2 freshId2 project hno hrole hproj
    unfold createUser getExpirationTime
    simp only [hno, hrole, hproj, Option.isSome_none, Bool.false_eq_true, if_false]
    exact ⟨_, rfl, rfl⟩

/-- C8 amended witness: on concrete stores, the tenant row gets the fixed
24-hour expiry while the global manager stamps the developer role's
3600-second duration. -/
theorem expiry_stamping_witness :
    ((∃ u : ProjectUser,
      getTable (createProjectUser sampleTenantDB sampleProjectA "new@example.com" "pw"
          "F" "L" 1 0 60).2 (getProjectUserTableName sampleProjectA) = some ([] ++ [u]) ∧
      u.tokenExpiry = 0 + 24 * 60 * 60) ∧
    (∀ (gdb : GlobalDB) (role : Role) (rid : Nat) (email2 pw2 fn2 ln2 : String)
       (pid now2 freshId2 : Nat) (project : Project),
      findUserByEmail gdb email2 = Option.none →
      findRoleById gdb rid = some role →
      findProjectById gdb pid = some project →
      ∃ u : User,
        (createUser gdb email2 pw2 fn2 ln2 rid pid now2 freshId2).1 = Except.ok u ∧
        u.expirationTime = now2 + role.expiration)) ∧
    (∃ u : User,
      (createUser sampleGlobalDB "new@example.com" "pw" "F" "L" 1 7 0 90).1
        = Except.ok u ∧
      u.expirationTime = 0 + devRole.expiration) :=
  ⟨expiry_stamping sampleTenantDB sampleProjectA "new@example.com" "pw" "F" "L" 1 0 60
      [] (List.replicate 16 17) (by decide) rfl (by decide),
   (expiry_stamping sampleTenantDB sampleProjectA "new@example.com" "pw" "F" "L" 1 0 60
      [] (List.replicate 16 17) (by decide) rfl (by decide)).2 sampleGlobalDB devRole 1
      "new@example.com" "pw" "F" "L" 7 0 90
      { id := 7, name := "Acme", description := "", uniqueID := "acme",
        createdAt := 0, updatedAt := 0 }
      (by decide) (by decide) (by decide)⟩

end UserMgmt

namespace UserMgmt

/-- C9: deleting an absent project fails with NotFound leaving the state
unchanged; with the project present, a forced table-drop failure rolls
the whole transaction back so the project row still exists; a fault-free
run removes both the row and the tenant table. -/
theorem deleteProject_atomicity (st : ProvState) (id : Nat) :
    (hasProjectWithId st id = false →
      ∀ f : DeleteFaults, deleteProject st id f = (Except.error "project not found", st)) ∧
    (∀ project, st.projects.find? (fun p => p.id == id) = some project →
      ((∀ f : DeleteFaults, f.failDeleteRow = false → f.failDrop = true →
        deleteProject st id f = (Except.error "failed to delete project resources", st) ∧
        hasProjectWithId (deleteProject st id f).2 id = true) ∧
      (deleteProject st id DeleteFaults.none = (Except.ok (),
        { projects := st.projects.filter (fun p => !(p.id == project.id)),
          tables := st.tables.filter
            (fun t => !(t == managerDeleteTableName project.uniqueID)) }) ∧
       hasProjectWithId (deleteProject st id DeleteFaults.none).2 id = false ∧
       managerDeleteTableName project.uniqueID
         ∉ (deleteProject st id DeleteFaults.none).2.tables))) := by
  constructor
  · intro habs f
    have hfind : st.projects.find? (fun p => p.id == id) = Option.none := by
      rw [List.find?_eq_none]
      intro x hx
      have := List.any_eq_false.mp habs x hx
      simpa using this
    unfold deleteProject
    rw [hfind]
  · intro project hfind
    have hpid : project.id = id := by
      have := List.find?_some hfind
      simpa using this
    have hmem : project ∈ st.projects := List.mem_of_find?_eq_some hfind
    constructor
    · rintro ⟨fd, fr, fc⟩ hfd hfr
      simp only at hfd hfr
      subst hfd; subst hfr
      constructor
      · unfold deleteProject
        rw [hfind]
        simp
      · unfold deleteProject
        rw [hfind]
        simp only [Bool.false_eq_true, if_false, if_true]
        unfold hasProjectWithId
        rw [List.any_eq_true]
        exact ⟨project, hmem, by simp [hpid]⟩
    · refine ⟨?_, ?_, ?_⟩
      · unfold deleteProject DeleteFaults.none
        rw [hfind]
        simp
      · unfold deleteProject DeleteFaults.none
        rw [hfind]
        simp only [Bool.false_eq_true, if_false]
        unfold hasProjectWithId
        rw [List.any_eq_false]
        intro p hp
        rw [List.mem_filter] at hp
        obtain ⟨hpmem, hpne⟩ := hp
        simp only [Bool.not_eq_true', beq_eq_false_iff_ne] at hpne
        simp only [Bool.not_eq_true, beq_eq_false_iff_ne]
        rw [hpid] at hpne
        exact hpne
      · unfold deleteProject DeleteFaults.none
        rw [hfind]
        simp only [Bool.false_eq_true, if_false]
        intro hmem2
        rw [List.mem_filter] at hmem2
        obtain ⟨_, hne⟩ := hmem2
        simp at hne

/-- C9 witness: on a concrete state, deleting an unknown id reports
NotFound, a forced drop failure keeps the row, and a fault-free delete
removes both row and table. -/
theorem deleteProject_atomicity_witness :
    deleteProject sampleProvState 99 DeleteFaults.none
      = (Except.error "project not found", sampleProvState) ∧
    (deleteProject sampleProvState 7 ⟨false, true, false⟩
      = (Except.error "failed to delete project resources", sampleProvState) ∧
     hasProjectWithId (deleteProject sampleProvState 7 ⟨false, true, false⟩).2 7 = true) ∧
    (hasProjectWithId (deleteProject sampleProvState 7 DeleteFaults.none).2 7 = false ∧
     managerDeleteTableName "acme"
       ∉ (deleteProject sampleProvState 7 DeleteFaults.none).2.tables) :=
  ⟨(deleteProject_atomicity sampleProvState 99).1 (by decide) DeleteFaults.none,
   ((deleteProject_atomicity sampleProvState 7).2
      { id := 7, name := "Acme", description := "", uniqueID := "acme",
        createdAt := 0, updatedAt := 0 } (by decide)).1 ⟨false, true, false⟩ rfl rfl,
   ((deleteProject_atomicity sampleProvState 7).2
      { id := 7, name := "Acme", description := "", uniqueID := "acme",
        createdAt := 0, updatedAt := 0 } (by decide)).2.2.1,
   ((deleteProject_atomicity sampleProvState 7).2
      { id := 7, name := "Acme", description := "", uniqueID := "acme",
        createdAt := 0, updatedAt := 0 } (by decide)).2.2.2⟩

/-- C10: a user row created through the OAuth upsert's create branch is
stored with an empty password hash and the active flag set, and for any
global-table user stored with an empty password hash and the active flag,
password login fails with the generic `invalid email or password` error
for every supplied password, because the bcrypt comparison against an
empty stored hash never succeeds. -/
theorem oauth_user_password_login_fails
    (db : TenantDB) (projectID : String) (ui : UserInfo) (roleID now freshId : Nat)
    (rows : List ProjectUser)
    (htab : getTable db (getProjectUserTableName projectID) = some rows)
    (hnew : findByEmail rows ui.email = Option.none)
    (hid : (uuidParse projectID).isSome = true) :
    (∃ u : ProjectUser, u.password = "" ∧ u.active = true ∧ u.email = ui.email ∧
      (createOrUpdateOAuthProjectUser db projectID ui roleID now freshId).1 =
        Except.ok (displayOf u) ∧
      getTable (createOrUpdateOAuthProjectUser db projectID ui roleID now freshId).2
        (getProjectUserTableName projectID) = some (rows ++ [u])) ∧
    (∀ (gdb : GlobalDB) (u : User) (password : String),
      findUserByEmail gdb u.email = some u → u.password = "" → u.active = true →
      login gdb u.email password = Except.error "invalid email or password") := by
  constructor
  · obtain ⟨bs, hbs⟩ := Option.isSome_iff_exists.mp hid
    unfold createOrUpdateOAuthProjectUser
    simp only [htab, hnew, hbs]
    refine ⟨_, rfl, rfl, rfl, rfl, ?_⟩
    exact getTable_setTable_self db _ _ (by rw [htab]; rfl)
  · intro gdb u password hu hpw hact
    unfold login
    rw [hu]
    simp [hact, hpw, bcryptCompare_empty_hash]

/-- C10 witness: the OAuth-created row on a concrete tenant table has no
password, and the login half applied at that state. -/
theorem oauth_user_password_login_fails_witness :
    (∃ u : ProjectUser, u.password = "" ∧ u.active = true ∧ u.email = sampleUserInfo.email ∧
      (createOrUpdateOAuthProjectUser sampleTenantDB sampleProjectA sampleUserInfo 1 0 50).1 =
        Except.ok (displayOf u) ∧
      getTable (createOrUpdateOAuthProjectUser sampleTenantDB sampleProjectA sampleUserInfo
          1 0 50).2
        (getProjectUserTableName sampleProjectA) = some ([] ++ [u])) ∧
    (∀ (gdb : GlobalDB) (u : User) (password : String),
      findUserByEmail gdb u.email = some u → u.password = "" → u.active = true →
      login gdb u.email password = Except.error "invalid email or password") :=
  oauth_user_password_login_fails sampleTenantDB sampleProjectA sampleUserInfo 1 0 50 []
    (by decide) rfl (by decide)

end UserMgmt
